import Mathlib

/-!
Shallow embedding of the content-workflow pipeline (app/graph.py) and its two
core subsystems: the claim verification engine (app/tools/factcheck.py) and the
compliance rule engine (app/tools/compliance.py).

Python floats are modelled as exact rationals (ℚ): every arithmetic operation
performed by the source on these scores (addition, max, min, comparison against
decimal literals) is exact on the dyadic/decimal values involved.  Python dicts
are modelled as insertion-ordered association lists, Python sets of strings as
duplicate-free lists, and the regular expressions of the source as explicit
character-list scanners with the same matching semantics (leftmost,
non-overlapping, alternatives tried in order, word boundaries).
-/

namespace ContentGen

/-! ## Data model (app/models.py) -/

/-- Severity of a factual claim, models the Literal type in app/models.py. -/
inductive ClaimSeverity
  | low
  | medium
  | high
deriving DecidableEq

/-- A factual claim, models the Claim pydantic model in app/models.py.
Confidence is a rational in [0,1] in the source's intent; the embedding does
not need the range restriction. -/
structure Claim where
  text : String
  severity : ClaimSeverity
  sources : List String
  confidence : ℚ
deriving DecidableEq

/-- Severity of a compliance issue, models the Literal type in app/models.py. -/
inductive IssueSeverity
  | minor
  | major
  | critical
deriving DecidableEq

/-- A compliance issue, models ComplianceIssue in app/models.py.
The Python message strings interpolate the confidence with two-decimal
formatting; that numeric rendering is elided here (messages keep the fixed
text and the claim text, which is all any property depends on). -/
structure ComplianceIssue where
  rule_id : String
  severity : IssueSeverity
  message : String
  suggestion : String
deriving DecidableEq

/-- Review status, models the Literal "pass" / "flag" / "block". -/
inductive ReviewStatus
  | pass
  | flag
  | block
deriving DecidableEq

/-- Review of one platform post, models PostReview in app/models.py. -/
structure PostReview where
  status : ReviewStatus
  issues : List ComplianceIssue
  claims : List Claim
deriving DecidableEq

/-- Target platform, models the Platform Literal in app/models.py. -/
inductive Platform
  | twitter
  | linkedin
  | instagram
deriving DecidableEq

/-- Boolean prefix test on character lists. -/
def isPrefixOfCL : List Char → List Char → Bool
  | [], _ => true
  | _ :: _, [] => false
  | a :: as, b :: bs => a == b && isPrefixOfCL as bs

/-- Boolean infix test on character lists. -/
def containsCL (needle : List Char) : List Char → Bool
  | [] => isPrefixOfCL needle []
  | c :: t => isPrefixOfCL needle (c :: t) || containsCL needle t

/-- Substring test: Python's `needle in hay` on strings. -/
def strContains (hay needle : String) : Bool :=
  containsCL needle.toList hay.toList

/-! ## Compliance engine (app/tools/compliance.py) -/

/-- PROFANITY_WORDS from app/tools/compliance.py (a Python set; listed in
source order, no property depends on iteration order). -/
def PROFANITY_WORDS : List String :=
  ["damn", "hell", "crap", "stupid", "idiot", "hate"]

/-- ABSOLUTE_PHRASES from app/tools/compliance.py. -/
def ABSOLUTE_PHRASES : List String :=
  ["guarantee", "guaranteed", "100%", "always works", "never fails",
   "instant results", "immediate"]

/-- STRICT_RESTRICTED from app/tools/compliance.py. -/
def STRICT_RESTRICTED : List String :=
  ["cure", "cures", "diagnose", "diagnosis", "treatment", "financial advice",
   "returns", "roi", "profit guaranteed", "investment"]

/-- _check_profanity: one minor issue per profanity word contained in the
lowercased text. -/
def checkProfanity (text : String) : List ComplianceIssue :=
  (PROFANITY_WORDS.filter (fun w => strContains text.toLower w)).map (fun w =>
    { rule_id := "profanity_check"
      severity := IssueSeverity.minor
      message := "Potential profanity detected: " ++ w
      suggestion := "Consider replacing " ++ w ++ " with a more professional alternative" })

/-- _check_absolute_claims: one major issue per absolute phrase contained in
the lowercased text. -/
def checkAbsoluteClaims (text : String) : List ComplianceIssue :=
  (ABSOLUTE_PHRASES.filter (fun w => strContains text.toLower w)).map (fun w =>
    { rule_id := "absolute_claims"
      severity := IssueSeverity.major
      message := "Absolute claim detected: " ++ w
      suggestion := "Soften the claim by replacing " ++ w ++ " with more qualified language" })

/-- _check_strict_mode: one critical issue per restricted term contained in
the lowercased text. -/
def checkStrictMode (text : String) : List ComplianceIssue :=
  (STRICT_RESTRICTED.filter (fun w => strContains text.toLower w)).map (fun w =>
    { rule_id := "strict_mode_restricted"
      severity := IssueSeverity.critical
      message := "Restricted term in strict mode: " ++ w
      suggestion := "Remove or replace " ++ w ++ " to avoid potential regulatory issues" })

/-- Issues produced for one claim by _check_claim_confidence's loop body:
an if/elif chain on the claim's severity and confidence. -/
def claimConfidenceIssues (claim : Claim) : List ComplianceIssue :=
  match claim.severity with
  | ClaimSeverity.high =>
    if claim.confidence < 3/10 then
      [{ rule_id := "low_confidence_claim"
         severity := IssueSeverity.major
         message := "Low confidence claim: " ++ claim.text
         suggestion := "Add a reliable source or soften the claim with qualifying language" }]
    else if claim.confidence < 1/2 ∧ claim.sources = [] then
      [{ rule_id := "unsourced_claim"
         severity := IssueSeverity.minor
         message := "Medium confidence claim without sources: " ++ claim.text
         suggestion := "Consider adding supporting sources to strengthen the claim" }]
    else if claim.confidence < 3/5 ∧ claim.sources ≠ [] ∧ 2 ≤ claim.sources.length then
      [{ rule_id := "attribution_note"
         severity := IssueSeverity.minor
         message := "Attribution available: " ++ claim.text
         suggestion := "Claim has supporting sources with partial verification" }]
    else []
  | ClaimSeverity.medium =>
    if claim.confidence < 1/4 then
      [{ rule_id := "low_confidence_claim"
         severity := IssueSeverity.minor
         message := "Low confidence claim: " ++ claim.text
         suggestion := "Consider adding supporting sources" }]
    else []
  | ClaimSeverity.low => []

/-- _check_claim_confidence: concatenation of the per-claim issues. -/
def checkClaimConfidence (claims : List Claim) : List ComplianceIssue :=
  (claims.map claimConfidenceIssues).flatten

/-- _determine_status from app/tools/compliance.py. -/
def determineStatus (issues : List ComplianceIssue) : ReviewStatus :=
  if issues = [] then ReviewStatus.pass
  else if issues.any (fun i => i.severity == IssueSeverity.critical) then ReviewStatus.block
  else if issues.any (fun i => i.severity == IssueSeverity.major) then ReviewStatus.flag
  else ReviewStatus.pass

/-- Compliance strictness mode (config.COMPLIANCE_MODE). -/
inductive ComplianceMode
  | standard
  | strict
deriving DecidableEq

/-- review_post from app/tools/compliance.py, with the process-wide
config.COMPLIANCE_MODE passed explicitly.  The platform argument is accepted
and unused, as in the source. -/
def reviewPost (mode : ComplianceMode) (_platform : Platform) (text : String)
    (claims : List Claim) : PostReview :=
  let issues := checkProfanity text ++ checkAbsoluteClaims text ++ checkClaimConfidence claims
  let issues := if mode = ComplianceMode.strict then issues ++ checkStrictMode text else issues
  { status := determineStatus issues, issues := issues, claims := claims }

/-- C1: the derived review status is block iff some issue is critical; flag iff
no issue is critical and some issue is major; pass when no issue is critical or
major — in particular a review whose issues are all minor has status pass. -/
theorem determineStatus_spec (issues : List ComplianceIssue) :
    (determineStatus issues = ReviewStatus.block ↔
      ∃ i ∈ issues, i.severity = IssueSeverity.critical) ∧
    (determineStatus issues = ReviewStatus.flag ↔
      (¬ ∃ i ∈ issues, i.severity = IssueSeverity.critical) ∧
      ∃ i ∈ issues, i.severity = IssueSeverity.major) ∧
    (((¬ ∃ i ∈ issues, i.severity = IssueSeverity.critical) ∧
      (¬ ∃ i ∈ issues, i.severity = IssueSeverity.major)) →
      determineStatus issues = ReviewStatus.pass) ∧
    ((∀ i ∈ issues, i.severity = IssueSeverity.minor) →
      determineStatus issues = ReviewStatus.pass) := by
  have hcb : (issues.any fun i => i.severity == IssueSeverity.critical) = true ↔
      ∃ i ∈ issues, i.severity = IssueSeverity.critical := by
    simp [List.any_eq_true]
  have hmb : (issues.any fun i => i.severity == IssueSeverity.major) = true ↔
      ∃ i ∈ issues, i.severity = IssueSeverity.major := by
    simp [List.any_eq_true]
  by_cases hc : ∃ i ∈ issues, i.severity = IssueSeverity.critical
  · have hnil : issues ≠ [] := by
      rintro rfl
      simp at hc
    have h1 : determineStatus issues = ReviewStatus.block := by
      simp [determineStatus, hnil, hcb.mpr hc]
    have hallmin : ¬ (∀ i ∈ issues, i.severity = IssueSeverity.minor) := by
      intro hall
      obtain ⟨i, hi, hcrit⟩ := hc
      have h2 := hall i hi
      rw [h2] at hcrit
      simp at hcrit
    exact ⟨by simp [h1, hc], by simp [h1, hc],
      fun h3 => absurd hc h3.1, fun h4 => absurd h4 hallmin⟩
  · have hcf : ¬ ((issues.any fun i => i.severity == IssueSeverity.critical) = true) :=
      fun h => hc (hcb.mp h)
    by_cases hm : ∃ i ∈ issues, i.severity = IssueSeverity.major
    · have hnil : issues ≠ [] := by
        rintro rfl
        simp at hm
      have h1 : determineStatus issues = ReviewStatus.flag := by
        simp [determineStatus, hnil, hcf, hmb.mpr hm]
      have hallmin : ¬ (∀ i ∈ issues, i.severity = IssueSeverity.minor) := by
        intro hall
        obtain ⟨i, hi, hmaj⟩ := hm
        have h2 := hall i hi
        rw [h2] at hmaj
        simp at hmaj
      exact ⟨by simp [h1, hc], by simp [h1, hc, hm],
        fun h3 => absurd hm h3.2, fun h4 => absurd h4 hallmin⟩
    · have hmf : ¬ ((issues.any fun i => i.severity == IssueSeverity.major) = true) :=
        fun h => hm (hmb.mp h)
      have h1 : determineStatus issues = ReviewStatus.pass := by
        unfold determineStatus
        by_cases hnil : issues = []
        · simp [hnil]
        · simp [hnil, hcf, hmf]
      exact ⟨by simp [h1, hc], by simp [h1, hm], fun _ => h1, fun _ => h1⟩

/-- Concrete high-severity claim with confidence 0.4 and two sources, exposing
the behaviour of the attribution_note tier below confidence 0.5. -/
def attributionExampleClaim : Claim :=
  { text := "80 percent of workers prefer remote work"
    severity := ClaimSeverity.high
    sources := ["https://example.org/a", "https://example.org/b"]
    confidence := 2/5 }

/-- C4 counterexample: a high-severity claim with confidence 0.4 (below 0.5)
and two sources makes _check_claim_confidence emit an attribution_note issue,
refuting the claim that no attribution_note is emitted below confidence 0.5. -/
theorem attribution_note_fires_below_half :
    attributionExampleClaim.confidence < 1/2 ∧
    (checkClaimConfidence [attributionExampleClaim]).any
      (fun i => i.rule_id == "attribution_note") = true := by
  constructor
  · norm_num [attributionExampleClaim]
  · have c1 : ¬ ((2:ℚ)/5 < 3/10) := by norm_num
    have c2 : ¬ ((2:ℚ)/5 < 1/2 ∧
        (["https://example.org/a", "https://example.org/b"] : List String) = []) := by
      rintro ⟨-, hx⟩
      simp at hx
    have c3 : (2:ℚ)/5 < 3/5 ∧
        (["https://example.org/a", "https://example.org/b"] : List String) ≠ [] ∧
        2 ≤ (["https://example.org/a", "https://example.org/b"] : List String).length := by
      refine ⟨by norm_num, by simp, by simp⟩
    simp only [checkClaimConfidence, attributionExampleClaim, List.map_cons, List.map_nil,
      List.flatten_cons, List.flatten_nil, List.append_nil, claimConfidenceIssues]
    rw [if_neg c1, if_neg c2, if_pos c3]
    simp

/-- C4 amended: for a high-severity claim, a minor attribution_note issue is
emitted exactly when the claim's confidence lies in [0.3, 0.6) and the claim
has at least 2 sources. -/
theorem attribution_note_iff (claim : Claim)
    (h : claim.severity = ClaimSeverity.high) :
    ((checkClaimConfidence [claim]).any (fun i => i.rule_id == "attribution_note") = true ↔
      3/10 ≤ claim.confidence ∧ claim.confidence < 3/5 ∧ 2 ≤ claim.sources.length) := by
  have hsrc : 2 ≤ claim.sources.length → claim.sources ≠ [] := by
    intro h2 hnil
    rw [hnil] at h2
    simp at h2
  simp only [checkClaimConfidence, List.map_cons, List.map_nil, List.flatten_cons,
    List.flatten_nil, List.append_nil, claimConfidenceIssues, h]
  split_ifs with h1 h2 h3
  · simp only [List.map, List.flatten, List.append_nil, List.any_cons, List.any_nil,
      Bool.or_false, beq_iff_eq]
    constructor
    · intro hx
      exact absurd hx (by simp)
    · intro hx
      exact absurd hx.1 (not_le.mpr h1)
  · simp only [List.map, List.flatten, List.append_nil, List.any_cons, List.any_nil,
      Bool.or_false, beq_iff_eq]
    constructor
    · intro hx
      exact absurd hx (by simp)
    · intro hx
      have : ¬ (2 ≤ claim.sources.length) := by
        rw [h2.2]
        simp
      exact absurd hx.2.2 this
  · simp only [List.map, List.flatten, List.append_nil, List.any_cons, List.any_nil,
      Bool.or_false, beq_iff_eq]
    constructor
    · intro _
      exact ⟨not_lt.mp h1, h3.1, h3.2.2⟩
    · intro _
      trivial
  · simp only [List.map, List.flatten, List.any_nil]
    constructor
    · intro hx
      exact absurd hx (by simp)
    · intro hx
      exact absurd ⟨hx.2.1, hsrc hx.2.2, hx.2.2⟩ h3

/-- Witness for the amended C4 theorem at the concrete example claim. -/
theorem attribution_note_iff_witness :
    ((checkClaimConfidence [attributionExampleClaim]).any
        (fun i => i.rule_id == "attribution_note") = true ↔
      3/10 ≤ attributionExampleClaim.confidence ∧
        attributionExampleClaim.confidence < 3/5 ∧
        2 ≤ attributionExampleClaim.sources.length) :=
  attribution_note_iff attributionExampleClaim rfl

/-! ## Regex scanners used by app/tools/factcheck.py

Python `re.findall` on the concrete patterns of the source is modelled by
explicit scanners over character lists: leftmost non-overlapping matches, a
failed match position advances by one character, alternatives are tried in the
pattern's order, and `\b` is the usual word-boundary (between a `\w` character
`[a-zA-Z0-9_]` and a non-`\w` character or the string edge).  The scanners use
an explicit fuel argument bounded by the input length; every step consumes at
least one character, so the fuel never runs out on the initial call. -/

/-- Word character for `\b` and `\w`: ASCII letters, digits, underscore. -/
def isWordChar (c : Char) : Bool :=
  c.isAlphanum || c == '_'

/-- How the trailing percent sign of a number pattern is treated:
`\d+(?:\.\d+)?` (noPct), `\d+(?:\.\d+)?%?` (optPct), `\d+(?:\.\d+)?%` (reqPct). -/
inductive PctMode
  | noPct
  | optPct
  | reqPct
deriving DecidableEq

/-- One greedy match of the number pattern at the head of the input, returning
the matched characters and the rest.  Mirrors the regex: greedy digit run,
optional fractional part (a dot followed by at least one digit), percent sign
per the mode.  Backtracking never yields a match the greedy scan misses for
these patterns (shrinking the digit run leaves a digit where `.` or `%` is
required). -/
def scanNumber (mode : PctMode) (cs : List Char) : Option (List Char × List Char) :=
  let ds := cs.takeWhile (fun c => c.isDigit)
  let rest1 := cs.dropWhile (fun c => c.isDigit)
  if ds = [] then none
  else
    let fracRest : List Char × List Char :=
      match rest1 with
      | '.' :: r =>
        let ds2 := r.takeWhile (fun c => c.isDigit)
        if ds2 = [] then ([], rest1)
        else ('.' :: ds2, r.dropWhile (fun c => c.isDigit))
      | _ => ([], rest1)
    match mode with
    | PctMode.noPct => some (ds ++ fracRest.1, fracRest.2)
    | PctMode.optPct =>
      match fracRest.2 with
      | '%' :: r3 => some (ds ++ fracRest.1 ++ ['%'], r3)
      | _ => some (ds ++ fracRest.1, fracRest.2)
    | PctMode.reqPct =>
      match fracRest.2 with
      | '%' :: r3 => some (ds ++ fracRest.1 ++ ['%'], r3)
      | _ => none

/-- Fuelled findall driver for the number pattern. -/
def findNumbersAux (mode : PctMode) : Nat → List Char → List String
  | 0, _ => []
  | _, [] => []
  | fuel + 1, c :: cs =>
    match scanNumber mode (c :: cs) with
    | some (m, rest) => m.asString :: findNumbersAux mode fuel rest
    | none => findNumbersAux mode fuel cs

/-- `re.findall` of the number pattern selected by the mode. -/
def findNumbers (mode : PctMode) (s : String) : List String :=
  findNumbersAux mode s.toList.length s.toList

/-- Try the alternatives of an alternation in order at the head of the input,
requiring the trailing word boundary (every alternative here ends in a word
character, so the boundary holds iff the next character is not a word
character).  A matching alternative whose boundary fails falls through to the
next alternative, as regex backtracking does. -/
def tryAlts (alts : List String) (cs : List Char) : Option (String × List Char) :=
  match alts with
  | [] => none
  | a :: rest =>
    let al := a.toList
    if isPrefixOfCL al cs then
      let after := cs.drop al.length
      if (match after with
          | [] => true
          | c :: _ => !(isWordChar c)) then
        some (a, after)
      else tryAlts rest cs
    else tryAlts rest cs

/-- Fuelled findall driver for a `\b(?:alt1|alt2|...)\b` pattern.  The Bool
argument records whether the previous character was a word character (the
leading `\b` requires it was not; every alternative starts with a word
character, and ends with one, so after a match the flag is true). -/
def findAltsAux (alts : List String) : Nat → Bool → List Char → List String
  | 0, _, _ => []
  | _, _, [] => []
  | fuel + 1, prevIsWord, c :: cs =>
    if !prevIsWord then
      match tryAlts alts (c :: cs) with
      | some (a, rest) => a :: findAltsAux alts fuel true rest
      | none => findAltsAux alts fuel (isWordChar c) cs
    else findAltsAux alts fuel (isWordChar c) cs

/-- `re.findall` of a word-boundary-delimited alternation. -/
def findAlts (alts : List String) (s : String) : List String :=
  findAltsAux alts s.toList.length false s.toList

/-- Maximal runs of word characters of the input (used to evaluate the
`\b[a-z]{3,}\b` word pattern: a run matches iff it is all lowercase ASCII
letters and at least 3 long, as no word boundary exists inside a run). -/
def wordRunsAux : Nat → List Char → List (List Char)
  | 0, _ => []
  | _, [] => []
  | fuel + 1, c :: cs =>
    if isWordChar c then
      (c :: cs.takeWhile isWordChar) :: wordRunsAux fuel (cs.dropWhile isWordChar)
    else wordRunsAux fuel cs

/-- `re.findall(r'\b[a-z]{3,}\b', s)`. -/
def lowerWords (s : String) : List String :=
  (wordRunsAux s.toList.length s.toList).filterMap (fun run =>
    if 3 ≤ run.length ∧ run.all Char.isLower then some run.asString else none)

/-- Python `set(...)` on a list of strings: duplicates removed, first
occurrence kept (only membership and cardinality are ever used). -/
def distinctL (l : List String) : List String :=
  l.foldl (fun acc x => if x ∈ acc then acc else acc ++ [x]) []

/-- Size of the intersection of two Python string sets
(`len(a.intersection(b))`), with both arguments duplicate-free. -/
def interCount (a b : List String) : Nat :=
  (a.filter (fun x => x ∈ b)).length

/-! ## Claim deduplication (app/tools/factcheck.py) -/

/-- Entity alternation used by _deduplicate_claims and _are_claims_similar:
`deloitte|lancet|fda|gartner|buffer|booking\.?com|european environment
agency|eea|who|cdc|mayo clinic` (the optional dot in `booking\.?com` expands
to the two alternatives in greedy order). -/
def dedupEntityAlts : List String :=
  ["deloitte", "lancet", "fda", "gartner", "buffer", "booking.com", "bookingcom",
   "european environment agency", "eea", "who", "cdc", "mayo clinic"]

/-- Collapse runs of whitespace to single spaces (`re.sub(r'\s+', ' ', s)`),
Python `\s` restricted to ASCII whitespace. -/
def collapseWhitespaceAux : Nat → List Char → List Char
  | 0, _ => []
  | _, [] => []
  | fuel + 1, c :: cs =>
    if c.isWhitespace then
      ' ' :: collapseWhitespaceAux fuel (cs.dropWhile Char.isWhitespace)
    else c :: collapseWhitespaceAux fuel cs

/-- `re.sub(r'(\d+)\s*percent', r'\1%', s)`: a digit run, optional whitespace,
then the literal `percent`, replaced by the digits followed by `%`. -/
def percentSubAux : Nat → List Char → List Char
  | 0, _ => []
  | _, [] => []
  | fuel + 1, c :: cs =>
    if c.isDigit then
      let ds := c :: cs.takeWhile Char.isDigit
      let r1 := cs.dropWhile Char.isDigit
      let r2 := r1.dropWhile Char.isWhitespace
      if isPrefixOfCL "percent".toList r2 then
        ds ++ '%' :: percentSubAux fuel (r2.drop 7)
      else ds ++ percentSubAux fuel r1
    else c :: percentSubAux fuel cs

/-- `re.sub(r'booking\.com\'?s?', 'booking.com', s)`: occurrences of
`booking.com` with an optional apostrophe and optional `s` are canonicalized
(greedy, so the longest of the four suffix forms is consumed). -/
def bookingSubAux : Nat → List Char → List Char
  | 0, _ => []
  | _, [] => []
  | fuel + 1, c :: cs =>
    if isPrefixOfCL "booking.com".toList (c :: cs) then
      let rest := (c :: cs).drop 11
      let rest1 :=
        match rest with
        | '\'' :: 's' :: r => r
        | '\'' :: r => r
        | 's' :: r => r
        | r => r
      "booking.com".toList ++ bookingSubAux fuel rest1
    else c :: bookingSubAux fuel cs

/-- _normalize_claim_text: lowercase, strip, collapse whitespace, `N percent`
→ `N%`, canonicalize booking.com forms. -/
def normalizeClaimText (text : String) : String :=
  let lowered := (text.toLower.trim).toList
  let collapsed := collapseWhitespaceAux lowered.length lowered
  let pct := percentSubAux collapsed.length collapsed
  (bookingSubAux pct.length pct).asString

/-- Signature construction of _deduplicate_claims: sorted number tokens and
sorted entity tokens joined by dashes, separated by an underscore.  Python
`sorted` on strings is lexicographic; any fixed total order works for the
properties proved, and lexicographic order on the character lists is used. -/
def claimSignature (text : String) : String :=
  let normalized := normalizeClaimText text
  let numbers := findNumbers PctMode.optPct normalized
  let entities := findAlts dedupEntityAlts normalized.toLower
  String.intercalate "-" (numbers.mergeSort (fun a b => a ≤ b)) ++ "_" ++
    String.intercalate "-" (entities.mergeSort (fun a b => a ≤ b))

/-- _are_claims_similar: the two texts share at least one number token and at
least one entity token. -/
def areClaimsSimilar (text1 text2 : String) : Bool :=
  let numbers1 := distinctL (findNumbers PctMode.optPct text1)
  let entities1 := distinctL (findAlts dedupEntityAlts text1.toLower)
  let numbers2 := distinctL (findNumbers PctMode.optPct text2)
  let entities2 := distinctL (findAlts dedupEntityAlts text2.toLower)
  decide (0 < interCount numbers1 numbers2) && decide (0 < interCount entities1 entities2)

/-- Loop of _deduplicate_claims: `seen` is the set of signatures of the claims
retained so far, `kept` the list of claims retained so far; the result is the
list of newly retained claims in input order.  A claim is retained iff its
signature is unseen and it is not similar to any already-retained claim. -/
def dedupGo (seen : List String) (kept : List Claim) : List Claim → List Claim
  | [] => []
  | c :: rest =>
    if decide (claimSignature c.text ∉ seen) &&
        !(kept.any (fun e => areClaimsSimilar c.text e.text)) then
      c :: dedupGo (claimSignature c.text :: seen) (kept ++ [c]) rest
    else dedupGo seen kept rest

/-- _deduplicate_claims from app/tools/factcheck.py. -/
def deduplicateClaims (claims : List Claim) : List Claim :=
  dedupGo [] [] claims

/-- Key lemma for idempotence: re-running the deduplication loop from the same
`seen`/`kept` context on its own output keeps every claim (each retained claim
had an unseen signature and was dissimilar to all earlier retained claims, and
the loop re-extends the context exactly as the first run did). -/
theorem dedupGo_self (cs : List Claim) :
    ∀ (seen : List String) (kept : List Claim),
      dedupGo seen kept (dedupGo seen kept cs) = dedupGo seen kept cs := by
  induction cs with
  | nil =>
    intro seen kept
    rfl
  | cons c rest ih =>
    intro seen kept
    by_cases hc : (decide (claimSignature c.text ∉ seen) &&
        !(kept.any (fun e => areClaimsSimilar c.text e.text))) = true
    · rw [dedupGo, if_pos hc, dedupGo, if_pos hc, ih]
    · rw [dedupGo, if_neg hc, ih]

/-- C3: claim deduplication is idempotent — running _deduplicate_claims on its
own output returns that output unchanged. -/
theorem deduplicateClaims_idempotent (claims : List Claim) :
    deduplicateClaims (deduplicateClaims claims) = deduplicateClaims claims :=
  dedupGo_self claims [] []

/-! ## Search-result filtering and confidence scoring (app/tools/factcheck.py) -/

/-- quality_patterns from _filter_search_results.  Every pattern is a literal
with escaped dots, so `re.search` is a plain substring test. -/
def quality_patterns : List String :=
  [".gov", ".edu", ".org",
   "reuters.", "bloomberg.", "wsj.", "bbc.", "guardian.", "nytimes.",
   "harvard.", "stanford.", "mit.", "oxford.", "cambridge.",
   "mckinsey.", "deloitte.", "gartner.", "statista.", "forrester.",
   "fortune.", "forbes.", "economist.", "ft.com", "npr.org",
   "who.int", "oecd.", "europa.eu", "worldbank.", "imf."]

/-- Deduplicated lowercase word set of a string (`set(re.findall(r'\b[a-z]{3,}\b', s))`). -/
def wordSet (s : String) : List String :=
  distinctL (lowerWords s)

/-- _filter_search_results: keep a (title, url) result if its lowercased url
contains a quality pattern, or the word-overlap relevance score exceeds 0.25,
or the title shares a number token with the claim. -/
def filterSearchResults (results : List (String × String)) (claim_text : String) :
    List (String × String) :=
  let claim_lower := claim_text.toLower
  let claim_words := wordSet claim_lower
  let claim_numbers := distinctL (findNumbers PctMode.optPct claim_text)
  results.filter (fun tu =>
    let title_lower := tu.1.toLower
    let url_lower := tu.2.toLower
    let has_quality_domain := quality_patterns.any (fun p => strContains url_lower p)
    let title_words := wordSet title_lower
    let title_numbers := distinctL (findNumbers PctMode.optPct tu.1)
    let word_overlap : ℚ :=
      (interCount claim_words title_words : ℚ) / (max claim_words.length 1 : ℚ)
    let number_match := decide (0 < interCount claim_numbers title_numbers)
    let relevance_score := word_overlap + (if number_match then (3 : ℚ)/10 else 0)
    has_quality_domain || decide ((1 : ℚ)/4 < relevance_score) || number_match)

/-- Entity alternation of _filter_relevant_results (the dedup list without
`mayo clinic`). -/
def relevantEntityAlts : List String :=
  ["deloitte", "lancet", "fda", "gartner", "buffer", "booking.com", "bookingcom",
   "european environment agency", "eea", "who", "cdc"]

/-- Keyword alternation of _filter_relevant_results
(`hospitals?|healthcare|ai|artificial intelligence|survey|study|research|pilot|program`,
with the optional `s` expanded greedily). -/
def relevantKeywordAlts : List String :=
  ["hospitals", "hospital", "healthcare", "ai", "artificial intelligence",
   "survey", "study", "research", "pilot", "program"]

/-- Relevance score of one result title in _filter_relevant_results: +2 per
claim number token contained in the lowercased title, +3 per claim entity
token, +1 per claim keyword token (tokens are lists, not sets — duplicates
count). -/
def relevanceScore (claim_numbers claim_entities claim_keywords : List String)
    (title_lower : String) : Nat :=
  (claim_numbers.foldl (fun s n => if strContains title_lower n then s + 2 else s) 0) +
  (claim_entities.foldl (fun s e => if strContains title_lower e.toLower then s + 3 else s) 0) +
  (claim_keywords.foldl (fun s k => if strContains title_lower k then s + 1 else s) 0)

/-- _filter_relevant_results: keep results whose title scores at least 2
against the claim's number, entity and keyword tokens. -/
def filterRelevantResults (results : List (String × String)) (claim_text : String) :
    List (String × String) :=
  let claim_numbers := findNumbers PctMode.noPct claim_text
  let claim_entities := findAlts relevantEntityAlts claim_text
  let claim_keywords := findAlts relevantKeywordAlts claim_text
  results.filter (fun tu =>
    2 ≤ relevanceScore claim_numbers claim_entities claim_keywords tu.1.toLower)

/-- tier1_indicators from _calculate_confidence. -/
def tier1_indicators : List String :=
  [".gov", ".edu", ".org", "nature.", "lancet.", "nejm.", "who.int", "europa.eu",
   "mckinsey.", "deloitte.", "gartner.", "statista.", "oecd.", "imf.", "worldbank.",
   "wttc.org", "unwto.org", "iata.org", "fda.gov", "cdc.gov", "eea.europa.eu"]

/-- tier2_indicators from _calculate_confidence. -/
def tier2_indicators : List String :=
  ["reuters.", "bloomberg.", "wsj.", "ft.com", "economist.", "harvard.", "stanford.",
   "mit.edu", "pewresearch.", "weforum.", "booking.com", "forbes.", "fortune.",
   "bbc.com", "npr.org", "guardian.", "nytimes.", "washingtonpost."]

/-- Content-match accumulation step of _calculate_confidence's first loop:
maximum of the keyword-overlap score and the exact percentage / number match
bumps, folded over the relevant results. -/
def contentStep (claim_keywords claim_numbers claim_percentages : List String)
    (score : ℚ) (tu : String × String) : ℚ :=
  let title_lower := tu.1.toLower
  let title_keywords := wordSet title_lower
  let keyword_overlap : ℚ :=
    (interCount claim_keywords title_keywords : ℚ) / (max claim_keywords.length 1 : ℚ)
  let score := max score (keyword_overlap * (2/5))
  let score := claim_percentages.foldl (fun sc pct =>
    if strContains title_lower pct ||
        strContains title_lower (pct.replace "%" " percent") then
      max sc (1/2)
    else sc) score
  claim_numbers.foldl (fun sc num =>
    if strContains (" " ++ title_lower ++ " ") (" " ++ num ++ " ") ||
        strContains title_lower (num ++ "%") then
      max sc (2/5)
    else sc) score

/-- Source-quality accumulation step of _calculate_confidence's second loop:
each relevant result bumps exactly one tier score (tier 1 to 0.4, tier 2 to
0.25, any other source to 0.1). -/
def tierStep (t : ℚ × ℚ × ℚ) (tu : String × String) : ℚ × ℚ × ℚ :=
  let url_lower := tu.2.toLower
  if tier1_indicators.any (fun i => strContains url_lower i) then
    (max t.1 (2/5), t.2.1, t.2.2)
  else if tier2_indicators.any (fun i => strContains url_lower i) then
    (t.1, max t.2.1 (1/4), t.2.2)
  else
    (t.1, t.2.1, max t.2.2 (1/10))

/-- _calculate_confidence from app/tools/factcheck.py.  The argument is the
result list the caller passes in (in the pipeline this is the output of
_filter_search_results, not the raw search results). -/
def calcConfidence (results : List (String × String)) (claim : Claim) : ℚ :=
  if results = [] then 1/10
  else
    let claim_text := claim.text.toLower
    let relevant_results := filterRelevantResults results claim_text
    if relevant_results = [] then 1/5
    else
      let claim_numbers := findNumbers PctMode.noPct claim_text
      let claim_percentages := findNumbers PctMode.reqPct claim_text
      let claim_keywords := wordSet claim_text
      let content_match_score :=
        relevant_results.foldl (contentStep claim_keywords claim_numbers claim_percentages) 0
      let tiers := relevant_results.foldl tierStep (0, 0, 0)
      let source_quality_score := tiers.1 + tiers.2.1 + tiers.2.2
      let consistency_score : ℚ :=
        if 3 ≤ relevant_results.length then 1/5
        else if 2 ≤ relevant_results.length then 1/10
        else 0
      let base_confidence := 1/2 + content_match_score
      min (base_confidence + source_quality_score + consistency_score) (19/20)

/-! ## Claim-language standardization and query enhancement (app/tools/factcheck.py) -/

/-- Hedge words checked by _standardize_claim_language. -/
def hedge_words : List String :=
  ["reportedly", "suggests", "indicates", "appears"]

/-- `re.search(r'\d+%', s)` succeeds iff some digit is immediately followed by
a percent sign. -/
def hasDigitPctPair : List Char → Bool
  | [] => false
  | [_] => false
  | a :: b :: r => (a.isDigit && b == '%') || hasDigitPctPair (b :: r)

/-- `re.sub(r'(\d+% of [^,]+)', r'reportedly \1', s)`: each digit run followed
by the literal `% of ` and at least one non-comma character (greedily up to the
next comma or the end) gets `reportedly ` prefixed. -/
def reportedlySubAux : Nat → List Char → List Char
  | 0, _ => []
  | _, [] => []
  | fuel + 1, c :: cs =>
    if c.isDigit then
      let ds := c :: cs.takeWhile Char.isDigit
      let r1 := cs.dropWhile Char.isDigit
      if isPrefixOfCL "% of ".toList r1 then
        let r2 := r1.drop 5
        let body := r2.takeWhile (fun ch => ch != ',')
        if body = [] then ds ++ reportedlySubAux fuel r1
        else
          "reportedly ".toList ++ ds ++ "% of ".toList ++ body ++
            reportedlySubAux fuel (r2.dropWhile (fun ch => ch != ','))
      else ds ++ reportedlySubAux fuel r1
    else c :: reportedlySubAux fuel cs

/-- _standardize_claim_language: below confidence 0.4 inject hedging (the
percentage rewrite when a `\d+%` is present, otherwise an `According to
reports,` prefix) unless already hedged; at confidence 0.7 and above strip a
leading `reportedly `; otherwise leave the text as extracted. -/
def standardizeClaimLanguage (claim_text : String) (confidence : ℚ) : String :=
  if confidence < 2/5 then
    if !(hedge_words.any (fun w => strContains claim_text.toLower w)) then
      if hasDigitPctPair claim_text.toList then
        (reportedlySubAux claim_text.toList.length claim_text.toList).asString
      else if !(strContains claim_text.toLower "according to") then
        "According to reports, " ++ claim_text.toLower
      else claim_text
    else claim_text
  else if 7/10 ≤ confidence then
    if claim_text.toLower.startsWith "reportedly " then claim_text.drop 11
    else claim_text
  else claim_text

/-- `re.sub(r'(\d+)%', ...)` of _enhance_search_query: digits followed by `%`
become `"N percent"` (in double quotes). -/
def quotePctSubAux : Nat → List Char → List Char
  | 0, _ => []
  | _, [] => []
  | fuel + 1, c :: cs =>
    if c.isDigit then
      let ds := c :: cs.takeWhile Char.isDigit
      let r1 := cs.dropWhile Char.isDigit
      match r1 with
      | '%' :: r2 => '\"' :: ds ++ ' ' :: "percent\"".toList ++ quotePctSubAux fuel r2
      | _ => ds ++ quotePctSubAux fuel r1
    else c :: quotePctSubAux fuel cs

/-- `re.sub(r'Org.*?(\d+)', 'Repl N', s)` for the Gartner and Buffer patterns:
after a literal organization name, the lazy gap runs to the first digit (not
crossing a newline, which `.` does not match); the digit run is captured and
the whole match replaced by the replacement prefix and the digits. -/
def orgNumSubAux (org repl : List Char) : Nat → List Char → List Char
  | 0, _ => []
  | _, [] => []
  | fuel + 1, c :: cs =>
    if isPrefixOfCL org (c :: cs) then
      let after := (c :: cs).drop org.length
      let gap := after.takeWhile (fun ch => !ch.isDigit && ch != '\n')
      let r1 := after.drop gap.length
      match r1 with
      | d :: _ =>
        if d.isDigit then
          let ds := r1.takeWhile Char.isDigit
          repl ++ ds ++ orgNumSubAux org repl fuel (r1.drop ds.length)
        else c :: orgNumSubAux org repl fuel cs
      | [] => c :: orgNumSubAux org repl fuel cs
    else c :: orgNumSubAux org repl fuel cs

/-- The `(?:,\d+)*` groups of the dollar pattern: greedily consume comma plus
digit-run groups. -/
def commaGroups : Nat → List Char → List Char × List Char
  | 0, cs => ([], cs)
  | fuel + 1, cs =>
    match cs with
    | ',' :: r =>
      let ds := r.takeWhile Char.isDigit
      if ds = [] then ([], cs)
      else
        let next := commaGroups fuel (r.drop ds.length)
        (',' :: ds ++ next.1, next.2)
    | _ => ([], cs)

/-- `re.sub(r'\$(\d+(?:,\d+)*(?:\.\d+)?)', ...)`: a dollar amount becomes
`"$N" savings`. -/
def dollarSubAux : Nat → List Char → List Char
  | 0, _ => []
  | _, [] => []
  | fuel + 1, c :: cs =>
    if c == '$' then
      let ds := cs.takeWhile Char.isDigit
      if ds = [] then '$' :: dollarSubAux fuel cs
      else
        let r1 := cs.drop ds.length
        let grps := commaGroups r1.length r1
        let fracRest : List Char × List Char :=
          match grps.2 with
          | '.' :: r =>
            let ds2 := r.takeWhile Char.isDigit
            if ds2 = [] then ([], grps.2)
            else ('.' :: ds2, r.drop ds2.length)
          | _ => ([], grps.2)
        let amount := ds ++ grps.1 ++ fracRest.1
        '\"' :: '$' :: amount ++ '\"' :: " savings".toList ++ dollarSubAux fuel fracRest.2
    else c :: dollarSubAux fuel cs

/-- _enhance_search_query: the four substitutions applied in the source's
pattern-dictionary insertion order (percent quoting, Gartner, Buffer, dollar
amounts), each on the previous result. -/
def enhanceSearchQuery (claim_text : String) : String :=
  let s1 := quotePctSubAux claim_text.toList.length claim_text.toList
  let s2 := orgNumSubAux "Gartner".toList "Gartner report ".toList s1.length s1
  let s3 := orgNumSubAux "Buffer".toList "Buffer survey ".toList s2.length s2
  (dollarSubAux s3.length s3).asString

/-! ## Claim verification (app/tools/factcheck.py) -/

/-- _verify_single_claim, with the search provider passed as a function.  In
the source the provider is chosen by config.FACTCHECK_PROVIDER (DuckDuckGo,
Wikipedia, or the SerpAPI fallback to DuckDuckGo); all branches call the
provider with the enhanced query and max_results 5, so the whole dispatch is
the `searchFn` parameter here. -/
def verifySingleClaim (searchFn : String → List (String × String)) (claim : Claim) : Claim :=
  let search_query := enhanceSearchQuery claim.text
  let search_results := searchFn search_query
  let filtered_results := filterSearchResults search_results claim.text
  let confidence := calcConfidence filtered_results claim
  let sources := (filtered_results.take 3).map Prod.snd
  let standardized_text := standardizeClaimLanguage claim.text confidence
  { text := standardized_text
    severity := claim.severity
    sources := sources
    confidence := confidence }

/-- verify_claims: deduplicate, then verify each unique claim. -/
def verifyClaims (searchFn : String → List (String × String)) (claims : List Claim) :
    List Claim :=
  (deduplicateClaims claims).map (verifySingleClaim searchFn)

/-! ## Bounds on the confidence score -/

/-- A fold never decreases when every step is inflationary. -/
theorem le_foldl_of_step {α : Type} (f : ℚ → α → ℚ) (h : ∀ a x, a ≤ f a x) :
    ∀ (l : List α) (a : ℚ), a ≤ l.foldl f a := by
  intro l
  induction l with
  | nil =>
    intro a
    exact le_refl a
  | cons x xs ih =>
    intro a
    rw [List.foldl_cons]
    exact le_trans (h a x) (ih (f a x))

/-- Each content-matching step only raises the running maximum. -/
theorem contentStep_le (kw nums pcts : List String) (a : ℚ) (tu : String × String) :
    a ≤ contentStep kw nums pcts a tu := by
  simp only [contentStep]
  have h1 : ∀ (sc : ℚ) (pct : String), sc ≤
      (if (strContains tu.1.toLower pct ||
          strContains tu.1.toLower (pct.replace "%" " percent")) = true
       then sc ⊔ 1/2 else sc) := by
    intro sc pct
    split_ifs
    · exact le_max_left _ _
    · exact le_refl _
  have h2 : ∀ (sc : ℚ) (num : String), sc ≤
      (if (strContains (" " ++ tu.1.toLower ++ " ") (" " ++ num ++ " ") ||
          strContains tu.1.toLower (num ++ "%")) = true
       then sc ⊔ 2/5 else sc) := by
    intro sc num
    split_ifs
    · exact le_max_left _ _
    · exact le_refl _
  exact le_trans (le_max_left a _)
    (le_trans (le_foldl_of_step _ h1 pcts _) (le_foldl_of_step _ h2 nums _))

/-- The tier accumulator is componentwise monotone in one step. -/
theorem tierStep_mono (t : ℚ × ℚ × ℚ) (tu : String × String) :
    t.1 ≤ (tierStep t tu).1 ∧ t.2.1 ≤ (tierStep t tu).2.1 ∧ t.2.2 ≤ (tierStep t tu).2.2 := by
  simp only [tierStep]
  split_ifs
  · exact ⟨le_max_left _ _, le_refl _, le_refl _⟩
  · exact ⟨le_refl _, le_max_left _ _, le_refl _⟩
  · exact ⟨le_refl _, le_refl _, le_max_left _ _⟩

/-- The tier accumulator is componentwise monotone along a fold. -/
theorem tier_foldl_mono (l : List (String × String)) :
    ∀ t : ℚ × ℚ × ℚ, t.1 ≤ (l.foldl tierStep t).1 ∧
      t.2.1 ≤ (l.foldl tierStep t).2.1 ∧ t.2.2 ≤ (l.foldl tierStep t).2.2 := by
  induction l with
  | nil =>
    intro t
    exact ⟨le_refl _, le_refl _, le_refl _⟩
  | cons x xs ih =>
    intro t
    have h1 := tierStep_mono t x
    have h2 := ih (tierStep t x)
    rw [List.foldl_cons]
    exact ⟨le_trans h1.1 h2.1, le_trans h1.2.1 h2.2.1, le_trans h1.2.2 h2.2.2⟩

/-- The first relevant result puts at least 0.1 into some tier. -/
theorem tierStep_first_sum (tu : String × String) :
    1/10 ≤ (tierStep (0, 0, 0) tu).1 + (tierStep (0, 0, 0) tu).2.1 +
      (tierStep (0, 0, 0) tu).2.2 := by
  simp only [tierStep]
  split_ifs <;> simp <;> norm_num [le_max_iff]

/-- Evaluation of _calculate_confidence on an empty result list. -/
theorem calcConfidence_nil (results : List (String × String)) (claim : Claim)
    (h1 : results = []) : calcConfidence results claim = 1/10 := by
  unfold calcConfidence
  rw [if_pos h1]

/-- Evaluation of _calculate_confidence when results exist but none is
relevant. -/
theorem calcConfidence_irrelevant (results : List (String × String)) (claim : Claim)
    (h1 : results ≠ [])
    (h2 : filterRelevantResults results claim.text.toLower = []) :
    calcConfidence results claim = 1/5 := by
  unfold calcConfidence
  rw [if_neg h1]
  simp only
  rw [if_pos h2]

/-- Evaluation of _calculate_confidence when some relevant result exists. -/
theorem calcConfidence_relevant (results : List (String × String)) (claim : Claim)
    (h1 : results ≠ [])
    (h2 : filterRelevantResults results claim.text.toLower ≠ []) :
    calcConfidence results claim =
      min ((1/2 + (filterRelevantResults results claim.text.toLower).foldl
            (contentStep (wordSet claim.text.toLower)
              (findNumbers PctMode.noPct claim.text.toLower)
              (findNumbers PctMode.reqPct claim.text.toLower)) 0) +
          (((filterRelevantResults results claim.text.toLower).foldl tierStep (0, 0, 0)).1 +
            ((filterRelevantResults results claim.text.toLower).foldl tierStep (0, 0, 0)).2.1 +
            ((filterRelevantResults results claim.text.toLower).foldl tierStep (0, 0, 0)).2.2) +
          (if 3 ≤ (filterRelevantResults results claim.text.toLower).length then (1/5 : ℚ)
           else if 2 ≤ (filterRelevantResults results claim.text.toLower).length then 1/10
           else 0))
        (19/20) := by
  unfold calcConfidence
  rw [if_neg h1]
  simp only
  rw [if_neg h2]

/-- Branch analysis of _calculate_confidence: 0.1 on no results, 0.2 on no
relevant results, otherwise between 0.6 and 0.95 (the base 0.5 plus a
source-quality contribution of at least 0.1 from the first relevant result,
capped at 0.95). -/
theorem calcConfidence_cases (results : List (String × String)) (claim : Claim) :
    (results = [] ∧ calcConfidence results claim = 1/10) ∨
    (results ≠ [] ∧ filterRelevantResults results claim.text.toLower = [] ∧
      calcConfidence results claim = 1/5) ∨
    (results ≠ [] ∧ filterRelevantResults results claim.text.toLower ≠ [] ∧
      3/5 ≤ calcConfidence results claim ∧ calcConfidence results claim ≤ 19/20) := by
  by_cases h1 : results = []
  · exact Or.inl ⟨h1, calcConfidence_nil results claim h1⟩
  · by_cases h2 : filterRelevantResults results claim.text.toLower = []
    · exact Or.inr (Or.inl ⟨h1, h2, calcConfidence_irrelevant results claim h1 h2⟩)
    · refine Or.inr (Or.inr ⟨h1, h2, ?_, ?_⟩)
      · rw [calcConfidence_relevant results claim h1 h2]
        have hC : (0 : ℚ) ≤ (filterRelevantResults results claim.text.toLower).foldl
            (contentStep (wordSet claim.text.toLower)
              (findNumbers PctMode.noPct claim.text.toLower)
              (findNumbers PctMode.reqPct claim.text.toLower)) 0 :=
          le_foldl_of_step _ (contentStep_le _ _ _) _ 0
        have hS : 1/10 ≤ ((filterRelevantResults results claim.text.toLower).foldl
              tierStep (0, 0, 0)).1 +
            ((filterRelevantResults results claim.text.toLower).foldl tierStep (0, 0, 0)).2.1 +
            ((filterRelevantResults results claim.text.toLower).foldl tierStep (0, 0, 0)).2.2 := by
          obtain ⟨r, rs, hr⟩ := List.exists_cons_of_ne_nil h2
          rw [hr, List.foldl_cons]
          have hfst := tierStep_first_sum r
          have hmono := tier_foldl_mono rs (tierStep (0, 0, 0) r)
          linarith [hmono.1, hmono.2.1, hmono.2.2]
        have hK : (0 : ℚ) ≤
            (if 3 ≤ (filterRelevantResults results claim.text.toLower).length then (1/5 : ℚ)
             else if 2 ≤ (filterRelevantResults results claim.text.toLower).length then 1/10
             else 0) := by
          split_ifs <;> norm_num
        refine le_min (by linarith) (by norm_num)
      · rw [calcConfidence_relevant results claim h1 h2]
        exact min_le_right _ _

/-- C2: every claim returned by the verification engine has confidence between
0.1 and 0.95; in particular the confidence is never exactly 1.0. -/
theorem verified_claim_confidence_bounds (searchFn : String → List (String × String))
    (claim : Claim) :
    1/10 ≤ (verifySingleClaim searchFn claim).confidence ∧
    (verifySingleClaim searchFn claim).confidence ≤ 19/20 ∧
    (verifySingleClaim searchFn claim).confidence ≠ 1 := by
  have hconf : (verifySingleClaim searchFn claim).confidence =
      calcConfidence
        (filterSearchResults (searchFn (enhanceSearchQuery claim.text)) claim.text) claim := rfl
  rcases calcConfidence_cases
      (filterSearchResults (searchFn (enhanceSearchQuery claim.text)) claim.text) claim with
    ⟨-, he⟩ | ⟨-, -, he⟩ | ⟨-, -, hl, hu⟩
  · rw [hconf, he]
    norm_num
  · rw [hconf, he]
    norm_num
  · rw [hconf]
    refine ⟨by linarith, hu, ?_⟩
    intro hx
    rw [hx] at hu
    norm_num at hu

/-- C9: single-claim verification preserves the claim's severity; only the
text, sources and confidence fields are recomputed. -/
theorem verify_preserves_severity (searchFn : String → List (String × String))
    (claim : Claim) :
    (verifySingleClaim searchFn claim).severity = claim.severity := rfl

/-- C10: the scorer's confidence is never strictly between 0.2 and 0.6 — it is
0.1 (no results), 0.2 (results but none relevant) or at least 0.6; hence the
compliance tiers for confidence in [0.3, 0.5) (unsourced_claim) and the
attribution tier requiring confidence below 0.6 can never fire on a freshly
verified claim, whatever its severity, text or sources. -/
theorem calcConfidence_gap (results : List (String × String)) (claim : Claim) :
    (calcConfidence results claim = 1/10 ∨ calcConfidence results claim = 1/5 ∨
      3/5 ≤ calcConfidence results claim) ∧
    ∀ (txt : String) (sev : ClaimSeverity) (srcs : List String),
      (checkClaimConfidence
          [Claim.mk txt sev srcs (calcConfidence results claim)]).any
        (fun i => i.rule_id == "unsourced_claim" || i.rule_id == "attribution_note") = false := by
  have tri : calcConfidence results claim = 1/10 ∨ calcConfidence results claim = 1/5 ∨
      3/5 ≤ calcConfidence results claim := by
    rcases calcConfidence_cases results claim with ⟨-, he⟩ | ⟨-, -, he⟩ | ⟨-, -, hl, -⟩
    · exact Or.inl he
    · exact Or.inr (Or.inl he)
    · exact Or.inr (Or.inr hl)
  refine ⟨tri, ?_⟩
  intro txt sev srcs
  have hlo : calcConfidence results claim < 3/10 ∨ 3/5 ≤ calcConfidence results claim := by
    rcases tri with h | h | h
    · left
      rw [h]
      norm_num
    · left
      rw [h]
      norm_num
    · exact Or.inr h
  cases sev with
  | low =>
    simp [checkClaimConfidence, claimConfidenceIssues]
  | medium =>
    by_cases hm : calcConfidence results claim < 1/4
    · simp [checkClaimConfidence, claimConfidenceIssues, hm]
    · simp [checkClaimConfidence, claimConfidenceIssues, hm]
  | high =>
    rcases hlo with hl | hg
    · simp [checkClaimConfidence, claimConfidenceIssues, hl]
    · have h1 : ¬ (calcConfidence results claim < 3/10) :=
        not_lt.mpr (le_trans (by norm_num) hg)
      have h2 : ¬ (calcConfidence results claim < 1/2 ∧ srcs = []) := fun hx =>
        absurd hx.1 (not_lt.mpr (le_trans (by norm_num) hg))
      have h3 : ¬ (calcConfidence results claim < 3/5 ∧ srcs ≠ [] ∧ 2 ≤ srcs.length) :=
        fun hx => absurd hx.1 (not_lt.mpr hg)
      simp only [checkClaimConfidence, List.map_cons, List.map_nil, List.flatten_cons,
        List.flatten_nil, List.append_nil, claimConfidenceIssues]
      rw [if_neg h1, if_neg h2, if_neg h3]
      simp

/-- C5 amended: the pipeline confidence is exactly 0.1 iff the quality/overlap
pre-filter (_filter_search_results) keeps nothing — even when the raw search
returned results — and exactly 0.2 iff the pre-filter keeps something but the
scorer's relevance filter (_filter_relevant_results) then drops everything. -/
theorem confidence_floor_iff (searchFn : String → List (String × String)) (claim : Claim) :
    ((verifySingleClaim searchFn claim).confidence = 1/10 ↔
      filterSearchResults (searchFn (enhanceSearchQuery claim.text)) claim.text = []) ∧
    ((verifySingleClaim searchFn claim).confidence = 1/5 ↔
      filterSearchResults (searchFn (enhanceSearchQuery claim.text)) claim.text ≠ [] ∧
      filterRelevantResults
        (filterSearchResults (searchFn (enhanceSearchQuery claim.text)) claim.text)
        claim.text.toLower = []) := by
  have hconf : (verifySingleClaim searchFn claim).confidence =
      calcConfidence
        (filterSearchResults (searchFn (enhanceSearchQuery claim.text)) claim.text) claim := rfl
  rcases calcConfidence_cases
      (filterSearchResults (searchFn (enhanceSearchQuery claim.text)) claim.text) claim with
    ⟨hn, he⟩ | ⟨hn, hrel, he⟩ | ⟨hn, hrel, hl, -⟩
  · constructor
    · rw [hconf, he]
      exact ⟨fun _ => hn, fun _ => rfl⟩
    · rw [hconf, he]
      constructor
      · intro hx
        norm_num at hx
      · intro hx
        exact absurd hn hx.1
  · constructor
    · rw [hconf, he]
      constructor
      · intro hx
        norm_num at hx
      · intro hx
        exact absurd hx hn
    · rw [hconf, he]
      exact ⟨fun _ => ⟨hn, hrel⟩, fun _ => rfl⟩
  · constructor
    · rw [hconf]
      constructor
      · intro hx
        rw [hx] at hl
        norm_num at hl
      · intro hx
        exact absurd hx hn
    · rw [hconf]
      constructor
      · intro hx
        rw [hx] at hl
        norm_num at hl
      · intro hx
        exact absurd hx.2 hrel

/-- Concrete claim and search provider for the C5 counterexample: the provider
returns one raw result that the quality/overlap pre-filter rejects. -/
def floorExampleClaim : Claim :=
  { text := "hospitals use ai", severity := ClaimSeverity.high, sources := [], confidence := 0 }

/-- Search function returning a single junk result for any query. -/
def floorExampleSearch : String → List (String × String) :=
  fun _ => [("zzzz", "https://example.xyz/a")]

/-- C5 counterexample: the raw search result list is non-empty, yet the
verification confidence is 0.1 (not 0.2), because _calculate_confidence
receives the already-filtered list, refuting the claim that 0.1 occurs only
when the search returned no raw results at all. -/
theorem confidence_floor_despite_raw_results :
    floorExampleSearch (enhanceSearchQuery floorExampleClaim.text) ≠ [] ∧
    (verifySingleClaim floorExampleSearch floorExampleClaim).confidence = 1/10 := by
  constructor
  · intro h
    simp [floorExampleSearch] at h
  · with_unfolding_all decide

/-- Witness for the amended C5 theorem at the concrete example inputs: the
pre-filter drops the junk result, and the confidence is indeed 0.1. -/
theorem confidence_floor_iff_witness :
    ((verifySingleClaim floorExampleSearch floorExampleClaim).confidence = 1/10 ↔
      filterSearchResults (floorExampleSearch (enhanceSearchQuery floorExampleClaim.text))
        floorExampleClaim.text = []) ∧
    ((verifySingleClaim floorExampleSearch floorExampleClaim).confidence = 1/5 ↔
      filterSearchResults (floorExampleSearch (enhanceSearchQuery floorExampleClaim.text))
        floorExampleClaim.text ≠ [] ∧
      filterRelevantResults
        (filterSearchResults (floorExampleSearch (enhanceSearchQuery floorExampleClaim.text))
          floorExampleClaim.text)
        floorExampleClaim.text.toLower = []) :=
  confidence_floor_iff floorExampleSearch floorExampleClaim

/-! ## Workflow state and pipeline stages (app/graph.py)

The LangGraph State TypedDict is modelled as a record; its Python dict fields
(`drafts`, `claims`, `reviews`) are insertion-ordered association lists keyed
by platform.  Outbound calls to the Generation Service (OpenAI) are modelled
as explicit worker functions returning `Except String`: an `error` is a raised
exception (or a failed parse, where the source folds both into the stage's
error handling), an `ok` is a successful call.  The Search Provider never
raises across its boundary (search_duckduckgo and search_wikipedia catch all
exceptions and return `[]`), so it stays a total function. -/

/-- KeyPoint from app/models.py. -/
structure KeyPoint where
  text : String
  importance : ℚ
deriving DecidableEq

/-- PlatformPost from app/models.py.  The untyped `metadata` dict (written
only by the out-of-core embedding-analysis stage) is not modelled. -/
structure PlatformPost where
  platform : Platform
  primary_text : String
  thread : Option (List String)
  hashtags : List String
  mentions : List String
  notes : Option String
deriving DecidableEq

/-- PostingTime from app/models.py. -/
structure PostingTime where
  platform : Platform
  local_datetime_iso : String
  rationale : String
deriving DecidableEq

/-- The State TypedDict from app/models.py (the untyped `embedding_analysis`
field of the out-of-core embedding stage is not modelled). -/
structure WorkflowState where
  text : String
  topic_hint : Option String
  key_points : List KeyPoint
  drafts : List (Platform × PlatformPost)
  claims : List (Platform × List Claim)
  reviews : List (Platform × PostReview)
  timings : List PostingTime
  errors : List String
deriving DecidableEq

/-- String form of a platform (the Literal values of app/models.py). -/
def platformName : Platform → String
  | Platform.twitter => "twitter"
  | Platform.linkedin => "linkedin"
  | Platform.instagram => "instagram"

/-- Python dict access `d[p]` / `d.get(p)` on an association list. -/
def lookupP {β : Type} (p : Platform) : List (Platform × β) → Option β
  | [] => none
  | kv :: rest => if kv.1 = p then some kv.2 else lookupP p rest

/-- Python dict update `d[p] = v` for a key already present: the entry is
replaced in place, keys and their order unchanged. -/
def updateAssoc {β : Type} (l : List (Platform × β)) (p : Platform) (v : β) :
    List (Platform × β) :=
  l.map (fun kv => if kv.1 = p then (p, v) else kv)

/-- extract_key_points from app/graph.py.  The `worker` stands for the OpenAI
chat completion plus _parse_json plus the per-item validation: `error e` is a
raised exception (the stage appends "Key points extraction failed: e"), `ok l`
the validated key-point list (an empty one triggers the no-valid-key-points
error branch; the source's separate message for an unparseable response is
folded into that branch).  On every failure path key_points is set to []. -/
def extractKeyPoints (worker : String → Except String (List KeyPoint))
    (s : WorkflowState) : WorkflowState :=
  if s.text = "" then
    { s with errors := s.errors ++ ["No text provided for key point extraction"],
             key_points := [] }
  else
    match worker s.text with
    | Except.error e =>
      { s with errors := s.errors ++ ["Key points extraction failed: " ++ e],
               key_points := [] }
    | Except.ok kps =>
      if kps = [] then
        { s with errors := s.errors ++ ["No valid key points found in parsed response"],
                 key_points := [] }
      else { s with key_points := kps }

/-- Aggregation of all platform claims in dict order (the all_claims list of
fact_check, with platform_claim_map the running start indices). -/
def allClaims (m : List (Platform × List Claim)) : List Claim :=
  (m.map Prod.snd).flatten

/-- Redistribution of the verified list back to the platforms:
`verified_claims[start : start + len]` per platform, Python slice semantics
(out-of-range slices clamp to empty). -/
def redistributeAux (verified : List Claim) (start : Nat) :
    List (Platform × List Claim) → List (Platform × List Claim)
  | [] => []
  | pc :: rest =>
    (pc.1, (verified.drop start).take pc.2.length) ::
      redistributeAux verified (start + pc.2.length) rest

/-- fact_check from app/graph.py: aggregate all claims, verify them together,
redistribute the result by the recorded start indices; a raised exception is
caught, its text appended to errors, and the claims dict left untouched. -/
def factCheck (verifier : List Claim → Except String (List Claim))
    (s : WorkflowState) : WorkflowState :=
  match verifier (allClaims s.claims) with
  | Except.ok verified => { s with claims := redistributeAux verified 0 s.claims }
  | Except.error e =>
    { s with errors := s.errors ++ ["Unified fact-checking failed: " ++ e] }

/-- The pipeline's actual verifier: verify_claims with a given search
provider.  It never raises once the provider is total, which the source's
providers are (they catch their own failures and return []). -/
def okVerifier (searchFn : String → List (String × String)) :
    List Claim → Except String (List Claim) :=
  fun cs => Except.ok (verifyClaims searchFn cs)

/-- A Search Provider all of whose calls fail: search_duckduckgo catches every
exception and returns the empty result list. -/
def failingSearch : String → List (String × String) :=
  fun _ => []

/-- compliance from app/graph.py: rebuild the reviews dict with one
review_post call per drafted platform (review_post is total, so the
per-platform exception handler is dead code here).  The second component logs
the platforms for which review_post was invoked, in call order, to state
invocation-count properties. -/
def complianceStage (mode : ComplianceMode) (s : WorkflowState) :
    WorkflowState × List Platform :=
  ({ s with reviews := s.drafts.map (fun pp =>
      (pp.1, reviewPost mode pp.1 pp.2.primary_text ((lookupP pp.1 s.claims).getD []))) },
   s.drafts.map Prod.fst)

/-- The issue summary built by remediate_if_blocked. -/
def issuesSummary (issues : List ComplianceIssue) : String :=
  String.intercalate "\n" (issues.map (fun i => "- " ++ i.message ++ ": " ++ i.suggestion))

/-- EDIT_SUGGESTIONS_PROMPT from app/prompts.py, instantiated with the issue
summary and the post text. -/
def editPrompt (issues post_text : String) : String :=
  "The following social media post has compliance issues. Please provide a minimally invasive rewrite that resolves all issues while maintaining the original message and tone.\n\nIssues to fix:\n"
    ++ issues ++ "\n\nOriginal post:\n" ++ post_text
    ++ "\n\nReturn only the revised post text, no extra commentary."

/-- Loop body of remediate_if_blocked for one (platform, review) entry: only a
blocked review triggers a rewrite; the rewriter models llm.invoke (its
`error` is a raised exception, caught with "Remediation failed for ..."
appended and the pre-remediation review kept); on success the draft's text is
replaced by the stripped response, its notes set, and review_post re-invoked
once on the revised text with the platform's claim list.  The accumulator
carries the state and the review_post invocation log. -/
def remediateStep (mode : ComplianceMode) (rewriter : String → Except String String)
    (acc : WorkflowState × List Platform) (pr : Platform × PostReview) :
    WorkflowState × List Platform :=
  if pr.2.status = ReviewStatus.block then
    match lookupP pr.1 acc.1.drafts with
    | none =>
      ({ acc.1 with errors := acc.1.errors ++
          ["Remediation failed for " ++ platformName pr.1 ++ ": missing draft"] }, acc.2)
    | some post =>
      match rewriter (editPrompt (issuesSummary pr.2.issues) post.primary_text) with
      | Except.error e =>
        ({ acc.1 with errors := acc.1.errors ++
            ["Remediation failed for " ++ platformName pr.1 ++ ": " ++ e] }, acc.2)
      | Except.ok content =>
        let revised_text := content.trim
        let post2 := { post with
          primary_text := revised_text,
          notes := some "Automatically revised for compliance" }
        let new_review :=
          reviewPost mode pr.1 revised_text ((lookupP pr.1 acc.1.claims).getD [])
        ({ acc.1 with
          drafts := updateAssoc acc.1.drafts pr.1 post2,
          reviews := updateAssoc acc.1.reviews pr.1 new_review }, acc.2 ++ [pr.1])
  else acc

/-- remediate_if_blocked from app/graph.py: the loop over the reviews dict
(each key is visited once; an entry's review is only updated while its own key
is processed, so folding over the pre-stage list is exact). -/
def remediateIfBlocked (mode : ComplianceMode) (rewriter : String → Except String String)
    (s : WorkflowState) : WorkflowState × List Platform :=
  s.reviews.foldl (remediateStep mode rewriter) (s, [])

/-! ## Failing-provider behaviour (C6, C7) -/

/-- With the always-failing Search Provider every single verified claim gets
the floor confidence 0.1: the provider yields no results, the pre-filter keeps
nothing, and the scorer's empty-result branch fires. -/
theorem verifySingleClaim_failingSearch (claim : Claim) :
    (verifySingleClaim failingSearch claim).confidence = 1/10 := by
  have h : (verifySingleClaim failingSearch claim).confidence =
      calcConfidence (filterSearchResults [] claim.text) claim := rfl
  rw [h]
  exact calcConfidence_nil _ _ rfl

/-- Every claim placed by the redistribution step comes from the verified
list. -/
theorem redistributeAux_mem (verified : List Claim) :
    ∀ (m : List (Platform × List Claim)) (start : Nat)
      (pc : Platform × List Claim), pc ∈ redistributeAux verified start m →
      ∀ c ∈ pc.2, c ∈ verified := by
  intro m
  induction m with
  | nil =>
    intro start pc hpc
    simp [redistributeAux] at hpc
  | cons hd tl ih =>
    intro start pc hpc c hc
    rw [redistributeAux] at hpc
    rcases List.mem_cons.mp hpc with heq | hmem
    · subst heq
      exact List.drop_subset start verified (List.take_subset _ _ hc)
    · exact ih (start + hd.2.length) pc hmem c hc

/-- C6 amended: with the Search Provider failing on every call the fact-check
stage still completes, every claim in the resulting state carries confidence
exactly 0.1 — but the errors list is left exactly as it was (the provider
failure is only printed, never appended), so it is NOT necessarily non-empty. -/
theorem factCheck_failingSearch_floor (s : WorkflowState) :
    (∀ pc ∈ (factCheck (okVerifier failingSearch) s).claims, ∀ c ∈ pc.2,
      c.confidence = 1/10) ∧
    (factCheck (okVerifier failingSearch) s).errors = s.errors := by
  constructor
  · intro pc hpc c hc
    have hver : pc ∈ redistributeAux (verifyClaims failingSearch (allClaims s.claims)) 0
        s.claims := hpc
    have hmem : c ∈ verifyClaims failingSearch (allClaims s.claims) :=
      redistributeAux_mem _ _ _ _ hver c hc
    obtain ⟨c0, -, hc0⟩ := List.mem_map.mp hmem
    rw [← hc0]
    exact verifySingleClaim_failingSearch c0
  · rfl

/-- Concrete state for the C6 counterexample: drafts and claims are populated,
the errors list starts empty. -/
def faultInjectionState : WorkflowState :=
  { text := "Hospitals are adopting AI quickly."
    topic_hint := none
    key_points := []
    drafts := [(Platform.twitter,
      { platform := Platform.twitter
        primary_text := "Hospitals are adopting AI."
        thread := none
        hashtags := []
        mentions := []
        notes := none })]
    claims := [(Platform.twitter,
      [{ text := "50% of hospitals use ai"
         severity := ClaimSeverity.high
         sources := []
         confidence := 0 }])]
    reviews := []
    timings := []
    errors := [] }

/-- C6 counterexample: running fact-check (with the always-failing provider),
compliance and remediation on a state with an empty errors list leaves the
errors list empty — the pipeline surfaces no error for total search failure,
refuting the non-empty-errors part of the claim (the floor-confidence part
does hold, see the amended theorem). -/
theorem errors_empty_despite_search_failure :
    ((remediateIfBlocked ComplianceMode.standard (fun x => Except.ok x)
        ((complianceStage ComplianceMode.standard
          (factCheck (okVerifier failingSearch) faultInjectionState)).1)).1).errors = [] ∧
    ((factCheck (okVerifier failingSearch) faultInjectionState).claims.all (fun pc =>
      pc.2.all (fun c => c.confidence == 1/10))) = true := by
  constructor
  · with_unfolding_all decide
  · with_unfolding_all decide

/-- C7 amended: when a stage's work raises, the exception text is appended to
errors; extract_key_points also resets its owned key_points field to the empty
default, but fact_check leaves the claims dict holding its pre-stage values
instead of resetting it. -/
theorem stage_failure_handling (s : WorkflowState) (e : String) (h : s.text ≠ "") :
    (extractKeyPoints (fun _ => Except.error e) s).key_points = [] ∧
    (extractKeyPoints (fun _ => Except.error e) s).errors =
      s.errors ++ ["Key points extraction failed: " ++ e] ∧
    (factCheck (fun _ => Except.error e) s).claims = s.claims ∧
    (factCheck (fun _ => Except.error e) s).errors =
      s.errors ++ ["Unified fact-checking failed: " ++ e] := by
  refine ⟨?_, ?_, rfl, rfl⟩
  · unfold extractKeyPoints
    rw [if_neg h]
  · unfold extractKeyPoints
    rw [if_neg h]

/-- State for the C7 counterexample: the claims dict holds a non-empty
pre-stage claim list. -/
def staleClaimsState : WorkflowState :=
  { text := "some blog text"
    topic_hint := none
    key_points := []
    drafts := []
    claims := [(Platform.twitter,
      [{ text := "80% of workers prefer remote work"
         severity := ClaimSeverity.high
         sources := []
         confidence := 0 }])]
    reviews := []
    timings := []
    errors := [] }

/-- C7 counterexample: when fact_check's work raises, the stage appends the
exception text but leaves its owned claims field holding the non-empty
pre-stage values — it is not reset to a safe empty default, refuting the claim
for the fact_check stage. -/
theorem factCheck_leaves_stale_claims :
    (factCheck (fun _ => Except.error "provider down") staleClaimsState).claims =
      staleClaimsState.claims ∧
    staleClaimsState.claims ≠ [] ∧
    (factCheck (fun _ => Except.error "provider down") staleClaimsState).claims ≠
      [(Platform.twitter, [])] ∧
    (factCheck (fun _ => Except.error "provider down") staleClaimsState).errors =
      ["Unified fact-checking failed: provider down"] := by
  refine ⟨rfl, ?_, ?_, rfl⟩
  · with_unfolding_all decide
  · with_unfolding_all decide

/-- Witness for the amended C7 theorem at a concrete state with non-empty
text. -/
theorem stage_failure_handling_witness :
    (extractKeyPoints (fun _ => Except.error "boom") staleClaimsState).key_points = [] ∧
    (extractKeyPoints (fun _ => Except.error "boom") staleClaimsState).errors =
      staleClaimsState.errors ++ ["Key points extraction failed: boom"] ∧
    (factCheck (fun _ => Except.error "boom") staleClaimsState).claims =
      staleClaimsState.claims ∧
    (factCheck (fun _ => Except.error "boom") staleClaimsState).errors =
      staleClaimsState.errors ++ ["Unified fact-checking failed: boom"] :=
  stage_failure_handling staleClaimsState "boom" (by decide)

/-! ## Compliance invocation counting (C8) -/

/-- A key present in the association list has a lookup value. -/
theorem lookupP_isSome_of_mem {β : Type} (p : Platform) (l : List (Platform × β))
    (h : p ∈ l.map Prod.fst) : ∃ v, lookupP p l = some v := by
  induction l with
  | nil =>
    simp at h
  | cons kv rest ih =>
    by_cases hq : kv.1 = p
    · exact ⟨kv.2, by rw [lookupP, if_pos hq]⟩
    · have h1 : p ∈ kv.1 :: rest.map Prod.fst := by simpa using h
      rcases List.mem_cons.mp h1 with h3 | h3
      · exact absurd h3.symm hq
      · obtain ⟨v, hv⟩ := ih h3
        exact ⟨v, by rw [lookupP, if_neg hq]; exact hv⟩

/-- In-place dict update does not change the keys or their order. -/
theorem updateAssoc_keys {β : Type} (l : List (Platform × β)) (p : Platform) (v : β) :
    (updateAssoc l p v).map Prod.fst = l.map Prod.fst := by
  induction l with
  | nil => rfl
  | cons kv rest ih =>
    simp only [updateAssoc, List.map_cons]
    have h1 : ((if kv.1 = p then (p, v) else kv) : Platform × β).1 = kv.1 := by
      split_ifs with h
      · rw [h]
      · rfl
    rw [h1]
    exact congrArg (kv.1 :: ·) ih

/-- One remediation step on a blocked review with a succeeding rewriter:
rewrite the draft, re-review once, log the platform. -/
theorem remediateStep_blocked (mode : ComplianceMode) (f : String → String)
    (st : WorkflowState) (log : List Platform) (pr : Platform × PostReview)
    (post : PlatformPost)
    (hb : pr.2.status = ReviewStatus.block)
    (hpost : lookupP pr.1 st.drafts = some post) :
    remediateStep mode (fun x => Except.ok (f x)) (st, log) pr =
      ({ st with
        drafts := updateAssoc st.drafts pr.1
          ({ post with
            primary_text := (f (editPrompt (issuesSummary pr.2.issues) post.primary_text)).trim,
            notes := some "Automatically revised for compliance" }),
        reviews := updateAssoc st.reviews pr.1
          (reviewPost mode pr.1
            (f (editPrompt (issuesSummary pr.2.issues) post.primary_text)).trim
            ((lookupP pr.1 st.claims).getD [])) }, log ++ [pr.1]) := by
  unfold remediateStep
  rw [if_pos hb, hpost]

/-- One remediation step on a non-blocked review is the identity. -/
theorem remediateStep_not_blocked (mode : ComplianceMode)
    (rewriter : String → Except String String) (acc : WorkflowState × List Platform)
    (pr : Platform × PostReview) (hb : pr.2.status ≠ ReviewStatus.block) :
    remediateStep mode rewriter acc pr = acc := by
  unfold remediateStep
  rw [if_neg hb]

/-- With a total (never-raising) rewriter, the remediation loop's review_post
invocation log is exactly the blocked platforms, in review order, provided
every reviewed platform has a draft. -/
theorem remediate_log (mode : ComplianceMode) (f : String → String) :
    ∀ (rs : List (Platform × PostReview)) (st : WorkflowState) (log : List Platform),
      (∀ q ∈ rs.map Prod.fst, q ∈ st.drafts.map Prod.fst) →
      (rs.foldl (remediateStep mode (fun x => Except.ok (f x))) (st, log)).2 =
        log ++ (rs.filter (fun pr => pr.2.status == ReviewStatus.block)).map Prod.fst := by
  intro rs
  induction rs with
  | nil =>
    intro st log h
    simp
  | cons pr rest ih =>
    intro st log h
    rw [List.foldl_cons]
    by_cases hb : pr.2.status = ReviewStatus.block
    · have hmem : pr.1 ∈ st.drafts.map Prod.fst := h pr.1 (by simp)
      obtain ⟨post, hpost⟩ := lookupP_isSome_of_mem pr.1 st.drafts hmem
      rw [remediateStep_blocked mode f st log pr post hb hpost]
      rw [ih _ _ ?hk]
      case hk =>
        intro q hq
        simp only [updateAssoc_keys]
        exact h q (by simp [hq])
      rw [List.filter_cons_of_pos (by simp [hb]), List.map_cons]
      simp
    · rw [remediateStep_not_blocked _ _ _ _ hb]
      rw [ih _ _ (fun q hq => h q (by simp [hq]))]
      rw [List.filter_cons_of_neg (by simp [hb])]

/-- With duplicate-free keys, the blocked-platform log contains a platform
once when its review is blocked and not at all otherwise. -/
theorem count_blocked_filter (p : Platform) :
    ∀ (rs : List (Platform × PostReview)), (rs.map Prod.fst).Nodup →
      ∀ r, lookupP p rs = some r →
      ((rs.filter (fun pr => pr.2.status == ReviewStatus.block)).map Prod.fst).count p =
        (if r.status = ReviewStatus.block then 1 else 0) := by
  intro rs
  induction rs with
  | nil =>
    intro _ r hr
    simp [lookupP] at hr
  | cons kv rest ih =>
    intro hnd r hr
    rw [List.map_cons] at hnd
    have hnd' := List.nodup_cons.mp hnd
    rw [lookupP] at hr
    by_cases hq : kv.1 = p
    · rw [if_pos hq] at hr
      injection hr with hr
      have hnp : p ∉ rest.map Prod.fst := hq ▸ hnd'.1
      have hcount0 :
          ((rest.filter (fun pr => pr.2.status == ReviewStatus.block)).map Prod.fst).count p
            = 0 := by
        apply List.count_eq_zero_of_not_mem
        intro hmem
        apply hnp
        obtain ⟨pr2, hpr2, hfst⟩ := List.mem_map.mp hmem
        exact hfst ▸ List.mem_map_of_mem _ (List.mem_of_mem_filter hpr2)
      by_cases hbl : kv.2.status = ReviewStatus.block
      · rw [List.filter_cons_of_pos (by simp [hbl]), List.map_cons, List.count_cons, hcount0]
        rw [← hr]
        simp [hq, hbl]
      · rw [List.filter_cons_of_neg (by simp [hbl]), hcount0, ← hr, if_neg hbl]
    · rw [if_neg hq] at hr
      have hrec := ih hnd'.2 r hr
      by_cases hbl : kv.2.status = ReviewStatus.block
      · rw [List.filter_cons_of_pos (by simp [hbl]), List.map_cons, List.count_cons, hrec]
        have hne : (kv.1 == p) = false := beq_eq_false_iff_ne.mpr hq
        rw [hne]
        simp
      · rw [List.filter_cons_of_neg (by simp [hbl]), hrec]

/-- C8: per platform with a draft, the compliance engine (review_post) is
invoked exactly twice when the platform's first review is blocked (once by the
compliance stage and once by the single remediation re-review) and exactly
once when it is not; remediation never re-reviews further whatever the new
status, since each reviews entry is visited once. -/
theorem compliance_invocation_count (mode : ComplianceMode) (f : String → String)
    (s : WorkflowState) (p : Platform) (r : PostReview)
    (hnd : (s.drafts.map Prod.fst).Nodup)
    (hp : p ∈ s.drafts.map Prod.fst)
    (hr : lookupP p (complianceStage mode s).1.reviews = some r) :
    ((complianceStage mode s).2 ++
      (remediateIfBlocked mode (fun x => Except.ok (f x))
        (complianceStage mode s).1).2).count p =
    if r.status = ReviewStatus.block then 2 else 1 := by
  have hkeys : (complianceStage mode s).1.reviews.map Prod.fst = s.drafts.map Prod.fst := by
    simp [complianceStage, List.map_map]
  have hdrafts : (complianceStage mode s).1.drafts = s.drafts := rfl
  have hrem := remediate_log mode f (complianceStage mode s).1.reviews
    (complianceStage mode s).1 []
    (by
      intro q hq
      rw [hdrafts]
      rw [hkeys] at hq
      exact hq)
  rw [List.count_append]
  have hlog1 : (complianceStage mode s).2 = s.drafts.map Prod.fst := rfl
  rw [hlog1, List.count_eq_one_of_mem hnd hp]
  unfold remediateIfBlocked
  rw [hrem, List.nil_append]
  rw [count_blocked_filter p _ (by rw [hkeys]; exact hnd) r hr]
  split_ifs <;> rfl

/-- Concrete state for the C8 witness: a strict-mode-blocked twitter draft and
a clean linkedin draft. -/
def remediationDemoState : WorkflowState :=
  { text := "blog"
    topic_hint := none
    key_points := []
    drafts := [
      (Platform.twitter,
        { platform := Platform.twitter
          primary_text := "This treatment can cure diabetes."
          thread := none
          hashtags := []
          mentions := []
          notes := none }),
      (Platform.linkedin,
        { platform := Platform.linkedin
          primary_text := "A calm look at new research directions."
          thread := none
          hashtags := []
          mentions := []
          notes := none })]
    claims := []
    reviews := []
    timings := []
    errors := [] }

/-- A total rewriter for the C8 witness. -/
def demoRewrite : String → String :=
  fun _ => "A balanced overview of diabetes care."

/-- The first (pre-remediation) review of the twitter draft in the demo
state. -/
def demoFirstReviewTwitter : PostReview :=
  reviewPost ComplianceMode.strict Platform.twitter "This treatment can cure diabetes." []

/-- The first review of the linkedin draft in the demo state. -/
def demoFirstReviewLinkedin : PostReview :=
  reviewPost ComplianceMode.strict Platform.linkedin
    "A calm look at new research directions." []

/-- Witness for the C8 theorem: instantiated at the demo state for both the
blocked twitter draft and the clean linkedin draft. -/
theorem compliance_invocation_count_witness :
    (((complianceStage ComplianceMode.strict remediationDemoState).2 ++
      (remediateIfBlocked ComplianceMode.strict (fun x => Except.ok (demoRewrite x))
        (complianceStage ComplianceMode.strict remediationDemoState).1).2).count
        Platform.twitter =
      if demoFirstReviewTwitter.status = ReviewStatus.block then 2 else 1) ∧
    (((complianceStage ComplianceMode.strict remediationDemoState).2 ++
      (remediateIfBlocked ComplianceMode.strict (fun x => Except.ok (demoRewrite x))
        (complianceStage ComplianceMode.strict remediationDemoState).1).2).count
        Platform.linkedin =
      if demoFirstReviewLinkedin.status = ReviewStatus.block then 2 else 1) :=
  ⟨compliance_invocation_count ComplianceMode.strict demoRewrite remediationDemoState
      Platform.twitter demoFirstReviewTwitter (by decide) (by decide) rfl,
    compliance_invocation_count ComplianceMode.strict demoRewrite remediationDemoState
      Platform.linkedin demoFirstReviewLinkedin (by decide) (by decide) rfl⟩

end ContentGen
